import Mathlib

/-!
Verification of the autoship release-orchestration engine.

The definitions below are a shallow embedding of the TypeScript sources:
`GitHubOperations` (status normalization, check polling, version-PR
discovery), the release run's DiffContext construction, and
`suggestReleaseType` from `ai.ts`.  JavaScript string operations
(`split`, `trim`, `toLowerCase`, `toUpperCase`, `includes`) are modelled
by executable functions over `String.data` so that concrete runs can be
evaluated by the kernel.
-/

namespace Autoship

/-! ## JavaScript string primitives -/

/-- Model of JavaScript `s.split(c)` for a single-character separator:
every occurrence of the separator splits, empty segments are kept. -/
def splitCharAux (c : Char) : List Char → List (List Char)
  | [] => [[]]
  | x :: xs =>
    if x = c then [] :: splitCharAux c xs
    else
      match splitCharAux c xs with
      | [] => [[x]]
      | h :: t => (x :: h) :: t

def splitChar (c : Char) (s : String) : List String :=
  (splitCharAux c s.data).map String.mk

/-- ASCII whitespace recognised by `trim`. -/
def isWS (c : Char) : Bool := c = ' ' || c = '\t' || c = '\n' || c = '\r'

/-- Model of JavaScript `s.trim()`. -/
def trimStr (s : String) : String :=
  String.mk (((s.data.dropWhile isWS).reverse.dropWhile isWS).reverse)

/-- Model of JavaScript `s.toLowerCase()` (ASCII, which covers every token
the program compares against). -/
def toLowerStr (s : String) : String := String.mk (s.data.map Char.toLower)

/-- Model of JavaScript `s.toUpperCase()` (ASCII). -/
def toUpperStr (s : String) : String := String.mk (s.data.map Char.toUpper)

def containsSubAux (pat : List Char) : List Char → Bool
  | [] => pat.isEmpty
  | c :: rest => pat.isPrefixOf (c :: rest) || containsSubAux pat rest

/-- Model of JavaScript `s.includes(pat)`. -/
def containsSub (s pat : String) : Bool := containsSubAux pat.data s.data

/-! ## Data model (src/types.ts) -/

/-- `CheckRun.status` union from types.ts. -/
inductive Status
  | queued
  | in_progress
  | completed
deriving DecidableEq

/-- Non-null values of the `CheckRun.conclusion` union from types.ts;
the TypeScript `null` member is modelled by `Option.none`. -/
inductive Conclusion
  | success
  | failure
  | neutral
  | cancelled
  | skipped
  | timed_out
  | action_required
deriving DecidableEq

structure CheckRun where
  id : Nat
  name : String
  status : Status
  conclusion : Option Conclusion
deriving DecidableEq

instance {ε α : Type} [DecidableEq ε] [DecidableEq α] : DecidableEq (Except ε α) :=
  fun a b =>
    match a, b with
    | Except.error e, Except.error f =>
      if h : e = f then isTrue (by rw [h])
      else isFalse fun hh => h (by injection hh)
    | Except.error _, Except.ok _ => isFalse fun hh => by injection hh
    | Except.ok _, Except.error _ => isFalse fun hh => by injection hh
    | Except.ok x, Except.ok y =>
      if h : x = y then isTrue (by rw [h])
      else isFalse fun hh => h (by injection hh)

/-! ## Status normalizer (GitHubOperations.mapStatus / mapConclusion) -/

/-- `GitHubOperations.mapStatus`: the input may be absent (`status?.`),
modelled by `Option`. -/
def mapStatus (status : Option String) : Status :=
  match status with
  | none => Status.queued
  | some s =>
    let u := toUpperStr s
    if u = "COMPLETED" then Status.completed
    else if u = "IN_PROGRESS" then Status.in_progress
    else if u = "PENDING" then Status.in_progress
    else Status.queued

/-- `GitHubOperations.mapConclusion`. -/
def mapConclusion (conclusion : Option String) : Option Conclusion :=
  match conclusion with
  | none => none
  | some s =>
    let u := toUpperStr s
    if u = "SUCCESS" then some Conclusion.success
    else if u = "FAILURE" then some Conclusion.failure
    else if u = "NEUTRAL" then some Conclusion.neutral
    else if u = "CANCELLED" then some Conclusion.cancelled
    else if u = "SKIPPED" then some Conclusion.skipped
    else if u = "TIMED_OUT" then some Conclusion.timed_out
    else none

/-- One element of the `statusCheckRollup` array returned by
`gh pr checks --json`. -/
structure RawCheck where
  name : String
  status : Option String
  conclusion : Option String
  workflowName : Option String

/-- `check.workflowName || check.name` (JavaScript truthiness: an empty
workflow name falls back to `name`). -/
def rawCheckName (c : RawCheck) : String :=
  match c.workflowName with
  | some w => if w = "" then c.name else w
  | none => c.name

/-- The per-element mapping inside `GitHubOperations.getCheckRuns`. -/
def normalizeCheck (c : RawCheck) : CheckRun :=
  { id := 0
    name := rawCheckName c
    status := mapStatus c.status
    conclusion := mapConclusion c.conclusion }

/-- `GitHubOperations.getCheckRuns` applied to a parsed rollup array. -/
def getCheckRuns (rollup : List RawCheck) : List CheckRun :=
  rollup.map normalizeCheck

/-! ## Tabular check-line parsing (inside GitHubOperations.waitForChecks) -/

/-- The banner filter at the top of the parsing loop. -/
def isBannerLine (line : String) : Bool :=
  containsSub line "Some checks are still pending" ||
  containsSub line "All checks were successful" ||
  containsSub line "Some checks were not successful"

/-- The if/else chain mapping the lower-cased status word of a tabular
line to a `(status, conclusion)` pair; the initial values are
`(queued, null)`. -/
def tabularStatus (statusStr : String) : Status × Option Conclusion :=
  if statusStr = "pass" || statusStr = "success" then
    (Status.completed, some Conclusion.success)
  else if statusStr = "fail" || statusStr = "failure" then
    (Status.completed, some Conclusion.failure)
  else if statusStr = "pending" || statusStr = "in_progress" then
    (Status.in_progress, none)
  else if statusStr = "skipping" || statusStr = "skipped" then
    (Status.completed, some Conclusion.skipped)
  else (Status.queued, none)

/-- The body of the parsing loop for a single line of
`gh pr checks` tabular output. -/
def parseCheckLine (line : String) : Option CheckRun :=
  if isBannerLine line then none
  else
    let parts := splitChar '\t' line
    if 2 ≤ parts.length then
      let name := trimStr (parts.headD "")
      let statusStr := toLowerStr (trimStr (parts.getD 1 ""))
      let sc := tabularStatus statusStr
      if name ≠ "" then
        some { id := 0, name := name, status := sc.1, conclusion := sc.2 }
      else none
    else none

/-- The whole tabular parse of one `gh pr checks` output blob:
split into lines, drop blank lines, parse each surviving line. -/
def parseChecksOutput (output : String) : List CheckRun :=
  ((splitChar '\n' output).filter fun l => trimStr l ≠ "").filterMap parseCheckLine

example :
    parseChecksOutput "build\tpass\t1m\thttp://x" =
      [{ id := 0, name := "build", status := Status.completed,
         conclusion := some Conclusion.success }] := by decide

example :
    parseChecksOutput "All checks were successful" = [] := by decide

/-! ## The checks poll (GitHubOperations.waitForChecks)

One loop iteration runs `gh pr checks` (which may throw — the
`try`/`catch` turns a throw into an empty check list), parses the
tabular output, and either returns, or sleeps and retries.  An
execution is modelled by the finite trace of probe outcomes the loop
observes before the wall-clock timeout elapses: one `Except Unit
String` per iteration (`error` = the command threw, `ok` = its raw
output).  An exhausted trace is the timeout. -/

/-- One iteration's check list: a thrown command yields `[]`
(the `catch` branch), otherwise the output is parsed. -/
def probeChecks (o : Except Unit String) : List CheckRun :=
  match o with
  | Except.error _ => []
  | Except.ok out => parseChecksOutput out

/-- The message of the `Error` thrown on timeout. -/
def timeoutChecksMsg : String := "Timeout waiting for checks to complete"

/-- `checks.every(check => check.status === 'completed')`. -/
def allCompleted (checks : List CheckRun) : Bool :=
  checks.all fun c => c.status == Status.completed

/-- `checks.every(check => check.conclusion === 'success' || check.conclusion === 'skipped')`. -/
def allSuccessful (checks : List CheckRun) : Bool :=
  checks.all fun c =>
    c.conclusion == some Conclusion.success ||
    c.conclusion == some Conclusion.skipped

/-- The decision made from one iteration's check list: empty list →
keep polling (`k`); all completed → return the aggregate; otherwise
keep polling. -/
def waitStep (checks : List CheckRun)
    (k : Except String (Bool × List CheckRun)) :
    Except String (Bool × List CheckRun) :=
  if checks.isEmpty then k
  else if allCompleted checks then Except.ok (allSuccessful checks, checks)
  else k

/-- `GitHubOperations.waitForChecks` over a trace of probe outcomes. -/
def waitForChecks : List (Except Unit String) → Except String (Bool × List CheckRun)
  | [] => Except.error timeoutChecksMsg
  | o :: rest => waitStep (probeChecks o) (waitForChecks rest)

/-! ## Version-PR discovery (findVersionPackagesPR / waitForVersionPackagesPR) -/

structure PullRequest where
  number : Nat
  html_url : String
  headRef : String
  headSha : String
  state : String
deriving DecidableEq

/-- One element of the JSON array returned by `gh pr list --json`. -/
structure RawPR where
  number : Nat
  url : String
  headRefName : String
  headRefOid : String
  state : String
  title : String

def rawToPR (p : RawPR) : PullRequest :=
  { number := p.number
    html_url := p.url
    headRef := p.headRefName
    headSha := p.headRefOid
    state := p.state }

/-- `GitHubOperations.findVersionPackagesPR`: a thrown lookup is caught
and yields `null`; a non-empty result list yields its first element. -/
def findVersionPackagesPR (res : Except Unit (List RawPR)) : Option PullRequest :=
  match res with
  | Except.error _ => none
  | Except.ok l => l.head?.map rawToPR

/-- The message of the `Error` thrown when the discovery poll times out. -/
def timeoutPRMsg : String := "Timeout waiting for Version Packages PR"

/-- `GitHubOperations.waitForVersionPackagesPR` over a trace of lookup
outcomes, one per iteration before the timeout elapses. -/
def waitForVersionPackagesPR : List (Except Unit (List RawPR)) → Except String PullRequest
  | [] => Except.error timeoutPRMsg
  | o :: rest =>
    match findVersionPackagesPR o with
    | some pr => Except.ok pr
    | none => waitForVersionPackagesPR rest

/-! ## DiffContext construction (runRelease in release.ts, GitOperations.getRecentCommits) -/

structure DiffContext where
  commits : List String
  diff : String
  filesChanged : List String
  insertions : Nat
  deletions : Nat
  previousVersion : String
deriving DecidableEq

structure DiffSummary where
  files : List String
  insertions : Nat
  deletions : Nat

/-- The read-only git queries `runRelease` may issue, abstracted as
functions of the repository state.  `allCommits` is the full history,
most recent first, as printed by `git log --oneline`. -/
structure GitRepo where
  allCommits : List String
  commitsSinceTag : String → List String
  diffSummary : String → DiffSummary
  fullDiffSinceTag : String → String

/-- `GitOperations.getRecentCommits`: `git log -<count> --oneline`
returns the `count` most recent commits. -/
def getRecentCommits (repo : GitRepo) (count : Nat) : List String :=
  repo.allCommits.take count

/-- A record of which git query was issued, used to state that the
fallback path performs no tag-relative query. -/
inductive GitCall
  | getCommitsSinceTag (tag : String)
  | getDiffSummary (tag : String)
  | getFullDiffSinceTag (tag : String)
  | getRecentCommits (count : Nat)
deriving DecidableEq

def GitCall.isTagRelative : GitCall → Bool
  | GitCall.getCommitsSinceTag _ => true
  | GitCall.getDiffSummary _ => true
  | GitCall.getFullDiffSinceTag _ => true
  | GitCall.getRecentCommits _ => false

/-- The DiffContext-building branch of `runRelease`, together with the
trace of git queries it issues: with a baseline tag it runs the three
tag-relative queries; with no tag it falls back to the 15 most recent
commits. -/
def buildDiffContext (repo : GitRepo) (latestTag : Option String) :
    DiffContext × List GitCall :=
  match latestTag with
  | some tag =>
    let summary := repo.diffSummary tag
    ({ commits := repo.commitsSinceTag tag
       diff := repo.fullDiffSinceTag tag
       filesChanged := summary.files
       insertions := summary.insertions
       deletions := summary.deletions
       previousVersion := tag },
     [GitCall.getCommitsSinceTag tag, GitCall.getDiffSummary tag,
      GitCall.getFullDiffSinceTag tag])
  | none =>
    ({ commits := getRecentCommits repo 15
       diff := ""
       filesChanged := []
       insertions := 0
       deletions := 0
       previousVersion := "unknown" },
     [GitCall.getRecentCommits 15])

/-! ## suggestReleaseType (src/ai.ts) -/

inductive ReleaseType
  | patch
  | minor
  | major
deriving DecidableEq

/-- `suggestReleaseType` from ai.ts.  `gen` is the outcome of the
`generateText` call (`error` = the call threw).  The second component
records whether the generator was invoked at all: an empty commit list
returns `patch` before the call is made. -/
def suggestReleaseType (context : DiffContext) (gen : Except Unit String) :
    ReleaseType × Bool :=
  if context.commits.isEmpty then (ReleaseType.patch, false)
  else
    match gen with
    | Except.error _ => (ReleaseType.patch, true)
    | Except.ok text =>
      let suggestion := toLowerStr (trimStr text)
      if suggestion = "major" then (ReleaseType.major, true)
      else if suggestion = "minor" then (ReleaseType.minor, true)
      else if suggestion = "patch" then (ReleaseType.patch, true)
      else (ReleaseType.patch, true)

/-! ## Re-normalization of canonical values -/

/-- The TypeScript string value of each canonical status. -/
def Status.toTok : Status → String
  | Status.queued => "queued"
  | Status.in_progress => "in_progress"
  | Status.completed => "completed"

/-- The TypeScript string value of each canonical non-null conclusion. -/
def Conclusion.toTok : Conclusion → String
  | Conclusion.success => "success"
  | Conclusion.failure => "failure"
  | Conclusion.neutral => "neutral"
  | Conclusion.cancelled => "cancelled"
  | Conclusion.skipped => "skipped"
  | Conclusion.timed_out => "timed_out"
  | Conclusion.action_required => "action_required"

/-- Re-running the structured-field normalizer on an already-canonical
CheckRun: its status and conclusion values are fed back (as their
TypeScript string values) through `mapStatus`/`mapConclusion`. -/
def renormalize (c : CheckRun) : CheckRun :=
  { c with
    status := mapStatus (some c.status.toTok)
    conclusion := mapConclusion (c.conclusion.map Conclusion.toTok) }

/-! ## Theorems -/

/-- C1: the structured-field status normalizer maps an uppercase token
COMPLETED to completed, IN_PROGRESS or PENDING to in_progress, and any
other token to queued; and maps SUCCESS/FAILURE/NEUTRAL/CANCELLED/
SKIPPED/TIMED_OUT to the corresponding lowercase conclusion and any
other token (including absent and empty) to null.  Both mappings are
Lean functions, hence total and deterministic, and never throw. -/
theorem mapStatus_mapConclusion_spec :
    mapStatus (some "COMPLETED") = Status.completed ∧
    mapStatus (some "IN_PROGRESS") = Status.in_progress ∧
    mapStatus (some "PENDING") = Status.in_progress ∧
    (∀ s : String,
      toUpperStr s ∉ (["COMPLETED", "IN_PROGRESS", "PENDING"] : List String) →
      mapStatus (some s) = Status.queued) ∧
    mapConclusion (some "SUCCESS") = some Conclusion.success ∧
    mapConclusion (some "FAILURE") = some Conclusion.failure ∧
    mapConclusion (some "NEUTRAL") = some Conclusion.neutral ∧
    mapConclusion (some "CANCELLED") = some Conclusion.cancelled ∧
    mapConclusion (some "SKIPPED") = some Conclusion.skipped ∧
    mapConclusion (some "TIMED_OUT") = some Conclusion.timed_out ∧
    (∀ s : String,
      toUpperStr s ∉ (["SUCCESS", "FAILURE", "NEUTRAL", "CANCELLED",
        "SKIPPED", "TIMED_OUT"] : List String) →
      mapConclusion (some s) = none) ∧
    mapConclusion none = none ∧
    mapConclusion (some "") = none := by
  refine ⟨by decide, by decide, by decide, ?_, by decide, by decide, by decide,
    by decide, by decide, by decide, ?_, rfl, by decide⟩
  · intro s h
    simp only [List.mem_cons, List.not_mem_nil, or_false, not_or] at h
    obtain ⟨h1, h2, h3⟩ := h
    simp [mapStatus, h1, h2, h3]
  · intro s h
    simp only [List.mem_cons, List.not_mem_nil, or_false, not_or] at h
    obtain ⟨h1, h2, h3, h4, h5, h6⟩ := h
    simp [mapConclusion, h1, h2, h3, h4, h5, h6]

/-- Witness for C1: the default branches at concrete unrecognized
tokens. -/
theorem mapStatus_mapConclusion_spec_witness :
    mapStatus (some "FOO") = Status.queued ∧
    mapConclusion (some "STALE") = none := by
  obtain ⟨-, -, -, hs, -, -, -, -, -, -, hc, -, -⟩ := mapStatus_mapConclusion_spec
  exact ⟨hs "FOO" (by decide), hc "STALE" (by decide)⟩

/-- C6: inside both polling loops, an iteration whose probe throws is
never fatal: the poll behaves exactly as if it continued with the rest
of its iterations, so a single failed status query is never raised to
the caller. -/
theorem probe_throw_not_fatal (rest : List (Except Unit String))
    (rest2 : List (Except Unit (List RawPR))) :
    waitForChecks (Except.error () :: rest) = waitForChecks rest ∧
    waitForVersionPackagesPR (Except.error () :: rest2) =
      waitForVersionPackagesPR rest2 :=
  ⟨rfl, rfl⟩

/-- The `allCompleted` aggregate holds exactly when every check has
status `completed`. -/
theorem allCompleted_iff (checks : List CheckRun) :
    allCompleted checks = true ↔ ∀ c ∈ checks, c.status = Status.completed := by
  simp [allCompleted, List.all_eq_true]

/-- The `allSuccessful` aggregate holds exactly when every conclusion is
`success` or `skipped`. -/
theorem allSuccessful_iff (checks : List CheckRun) :
    allSuccessful checks = true ↔
      ∀ c ∈ checks,
        c.conclusion = some Conclusion.success ∨
        c.conclusion = some Conclusion.skipped := by
  simp [allSuccessful, List.all_eq_true]

/-- C4: for a non-empty snapshot, the poll iteration is satisfied
exactly when every check has status completed, and on satisfaction it
returns the aggregate success boolean, which is true iff every
conclusion is success or skipped; a snapshot containing a failure or
timed_out conclusion is an overall failure. -/
theorem checks_poll_satisfaction (checks : List CheckRun)
    (k : Except String (Bool × List CheckRun)) (hne : checks ≠ []) :
    (allCompleted checks = true ↔ ∀ c ∈ checks, c.status = Status.completed) ∧
    (allCompleted checks = true →
      waitStep checks k = Except.ok (allSuccessful checks, checks)) ∧
    (allCompleted checks = false → waitStep checks k = k) ∧
    (allSuccessful checks = true ↔
      ∀ c ∈ checks,
        c.conclusion = some Conclusion.success ∨
        c.conclusion = some Conclusion.skipped) ∧
    ((∃ c ∈ checks,
        c.conclusion = some Conclusion.failure ∨
        c.conclusion = some Conclusion.timed_out) →
      allSuccessful checks = false) := by
  have hemp : checks.isEmpty = false := by
    simpa [List.isEmpty_iff] using hne
  refine ⟨allCompleted_iff checks, ?_, ?_, allSuccessful_iff checks, ?_⟩
  · intro hall
    simp [waitStep, hemp, hall]
  · intro hall
    simp [waitStep, hemp, hall]
  · rintro ⟨c, hc, hconc⟩
    rw [Bool.eq_false_iff]
    intro hsucc
    rcases (allSuccessful_iff checks).mp hsucc c hc with h | h <;>
      rcases hconc with h' | h' <;> simp [h'] at h

/-- Witness for C4: a completed snapshot with conclusions
{success, skipped} returns overall success; adding a failure flips the
aggregate to false. -/
theorem checks_poll_satisfaction_witness :
    waitStep
      [{ id := 0, name := "build", status := Status.completed,
         conclusion := some Conclusion.success },
       { id := 0, name := "docs", status := Status.completed,
         conclusion := some Conclusion.skipped }]
      (Except.error "k") =
      Except.ok (true,
        [{ id := 0, name := "build", status := Status.completed,
           conclusion := some Conclusion.success },
         { id := 0, name := "docs", status := Status.completed,
           conclusion := some Conclusion.skipped }]) ∧
    allSuccessful
      [{ id := 0, name := "build", status := Status.completed,
         conclusion := some Conclusion.success },
       { id := 0, name := "lint", status := Status.completed,
         conclusion := some Conclusion.failure }] = false := by
  constructor
  · have h := (checks_poll_satisfaction
      [{ id := 0, name := "build", status := Status.completed,
         conclusion := some Conclusion.success },
       { id := 0, name := "docs", status := Status.completed,
         conclusion := some Conclusion.skipped }]
      (Except.error "k") (by decide)).2.1 (by decide)
    simpa using h
  · exact (checks_poll_satisfaction
      [{ id := 0, name := "build", status := Status.completed,
         conclusion := some Conclusion.success },
       { id := 0, name := "lint", status := Status.completed,
         conclusion := some Conclusion.failure }]
      (Except.error "k") (by decide)).2.2.2.2
      ⟨{ id := 0, name := "lint", status := Status.completed,
         conclusion := some Conclusion.failure }, by simp, Or.inl rfl⟩

/-- The tabular status table only ever produces one of five
`(status, conclusion)` pairs. -/
theorem tabularStatus_mem (w : String) :
    tabularStatus w ∈
      ([(Status.completed, some Conclusion.success),
        (Status.completed, some Conclusion.failure),
        (Status.in_progress, (none : Option Conclusion)),
        (Status.completed, some Conclusion.skipped),
        (Status.queued, none)] : List (Status × Option Conclusion)) := by
  unfold tabularStatus
  split
  · simp
  split
  · simp
  split
  · simp
  split
  · simp
  · simp

/-- Any successfully parsed tabular line carries the status/conclusion
pair obtained by lower-casing the line's trimmed second field and
applying the status table. -/
theorem parseCheckLine_eq_some (line : String) (c : CheckRun)
    (h : parseCheckLine line = some c) :
    c.status =
      (tabularStatus (toLowerStr (trimStr ((splitChar '\t' line).getD 1 "")))).1 ∧
    c.conclusion =
      (tabularStatus (toLowerStr (trimStr ((splitChar '\t' line).getD 1 "")))).2 := by
  unfold parseCheckLine at h
  split at h
  · exact absurd h (by simp)
  · dsimp only at h
    split at h
    · split at h
      · cases h
        exact ⟨rfl, rfl⟩
      · exact absurd h (by simp)
    · exact absurd h (by simp)

/-- C3: the tabular check-line parser lower-cases the status word and
maps pass/success to (completed, success), fail/failure to
(completed, failure), pending/in_progress to (in_progress, null),
skipping/skipped to (completed, skipped), and any other word to
(queued, null); the two example lines parse as the claim states, and
the banner line contributes zero entries. -/
theorem tabular_line_mapping :
    (∀ line c, parseCheckLine line = some c →
      c.status =
        (tabularStatus (toLowerStr (trimStr ((splitChar '\t' line).getD 1 "")))).1 ∧
      c.conclusion =
        (tabularStatus (toLowerStr (trimStr ((splitChar '\t' line).getD 1 "")))).2) ∧
    tabularStatus "pass" = (Status.completed, some Conclusion.success) ∧
    tabularStatus "success" = (Status.completed, some Conclusion.success) ∧
    tabularStatus "fail" = (Status.completed, some Conclusion.failure) ∧
    tabularStatus "failure" = (Status.completed, some Conclusion.failure) ∧
    tabularStatus "pending" = (Status.in_progress, none) ∧
    tabularStatus "in_progress" = (Status.in_progress, none) ∧
    tabularStatus "skipping" = (Status.completed, some Conclusion.skipped) ∧
    tabularStatus "skipped" = (Status.completed, some Conclusion.skipped) ∧
    (∀ w : String,
      w ∉ (["pass", "success", "fail", "failure", "pending", "in_progress",
        "skipping", "skipped"] : List String) →
      tabularStatus w = (Status.queued, none)) ∧
    parseChecksOutput "build\tpass\t1m\thttp://x" =
      [{ id := 0, name := "build", status := Status.completed,
         conclusion := some Conclusion.success }] ∧
    parseChecksOutput "lint\tpending\t-\thttp://x" =
      [{ id := 0, name := "lint", status := Status.in_progress,
         conclusion := none }] ∧
    parseChecksOutput "All checks were successful" = [] := by
  refine ⟨parseCheckLine_eq_some, by decide, by decide, by decide, by decide,
    by decide, by decide, by decide, by decide, ?_, by decide, by decide, by decide⟩
  intro w h
  simp only [List.mem_cons, List.not_mem_nil, or_false, not_or] at h
  obtain ⟨h1, h2, h3, h4, h5, h6, h7, h8⟩ := h
  simp [tabularStatus, h1, h2, h3, h4, h5, h6, h7, h8]

/-- Witness for C3: the general line lemma at the claim's first example
line, and the default branch at a concrete unrecognized word. -/
theorem tabular_line_mapping_witness :
    (CheckRun.mk 0 "build" Status.completed (some Conclusion.success)).status =
      (tabularStatus (toLowerStr (trimStr
        ((splitChar '\t' "build\tpass\t1m\thttp://x").getD 1 "")))).1 ∧
    tabularStatus "queued" = (Status.queued, none) := by
  obtain ⟨hp, -, -, -, -, -, -, -, -, hd, -, -, -⟩ := tabular_line_mapping
  exact ⟨(hp "build\tpass\t1m\thttp://x"
    (CheckRun.mk 0 "build" Status.completed (some Conclusion.success)) (by decide)).1,
    hd "queued" (by decide)⟩

/-- C2 counterexample: the structured path maps status and conclusion
independently, so a check reported with status COMPLETED and the
unrecognized conclusion token STALE normalizes to a CheckRun whose
status is completed but whose conclusion is null. -/
theorem completed_null_conclusion_cex :
    getCheckRuns
        [{ name := "build", status := some "COMPLETED",
           conclusion := some "STALE", workflowName := none }] =
      [{ id := 0, name := "build", status := Status.completed,
         conclusion := none }] := by decide

/-- C2 amended: on the tabular path, every CheckRun the normalizer
produces with status completed carries a non-null conclusion; on the
structured path a completed status may be left with the explicit null
conclusion when the conclusion token is unrecognized. -/
theorem tabular_completed_has_conclusion (output : String) (c : CheckRun)
    (hc : c ∈ parseChecksOutput output) (hs : c.status = Status.completed) :
    c.conclusion ≠ none := by
  obtain ⟨line, -, hp⟩ := List.mem_filterMap.mp hc
  obtain ⟨h1, h2⟩ := parseCheckLine_eq_some line c hp
  have hm := tabularStatus_mem (toLowerStr (trimStr ((splitChar '\t' line).getD 1 "")))
  simp only [List.mem_cons, List.not_mem_nil, or_false] at hm
  rcases hm with h | h | h | h | h <;> rw [h] at h1 h2 <;> simp_all

/-- Witness for C2 (amended): the check parsed from a passing tabular
line is completed and its conclusion is non-null. -/
theorem tabular_completed_has_conclusion_witness :
    (CheckRun.mk 0 "build" Status.completed (some Conclusion.success)).conclusion ≠
      none :=
  tabular_completed_has_conclusion "build\tpass\t1m\thttp://x"
    (CheckRun.mk 0 "build" Status.completed (some Conclusion.success))
    (by decide) (by decide)

/-- C5 counterexample: two executions that time out with different last
observed snapshots produce identical Timeout errors — the thrown error
is the fixed message string and cannot carry the last observed check
snapshot. -/
theorem timeout_error_non_informative_cex :
    waitForChecks [Except.ok "build\tpending\t-\thttp://x"] =
      waitForChecks [Except.ok "lint\tpending\t-\thttp://x"] ∧
    probeChecks (Except.ok "build\tpending\t-\thttp://x") ≠
      probeChecks (Except.ok "lint\tpending\t-\thttp://x") ∧
    waitForChecks [Except.ok "build\tpending\t-\thttp://x"] =
      Except.error timeoutChecksMsg := by decide

/-- C5 amended: whenever no iteration observes a snapshot with all
checks completed, the poll terminates by failing with the Timeout
error, whose payload is the fixed message (it carries no snapshot
data). -/
theorem waitForChecks_timeout (trace : List (Except Unit String))
    (h : ∀ o ∈ trace,
      probeChecks o = [] ∨ allCompleted (probeChecks o) = false) :
    waitForChecks trace = Except.error timeoutChecksMsg := by
  induction trace with
  | nil => rfl
  | cons o rest ih =>
    have ho := h o (List.mem_cons_self o rest)
    have hrest := ih fun x hx => h x (List.mem_cons_of_mem o hx)
    unfold waitForChecks waitStep
    rcases ho with ho | ho
    · simp [ho, hrest]
    · by_cases hE : (probeChecks o).isEmpty
      · simp [hE, hrest]
      · simp [hE, ho, hrest]

/-- Witness for C5 (amended): a run observing one pending snapshot and
one thrown query times out with the fixed error. -/
theorem waitForChecks_timeout_witness :
    waitForChecks [Except.ok "build\tpending\t-\thttp://x", Except.error ()] =
      Except.error timeoutChecksMsg :=
  waitForChecks_timeout
    [Except.ok "build\tpending\t-\thttp://x", Except.error ()] (by decide)

/-- C10: an iteration whose parsed check list is empty keeps polling
(the poll continues exactly as without it), and every non-timeout
result of the poll carries a non-empty check list all of whose entries
are completed, with the aggregate boolean computed from it. -/
theorem waitForChecks_ok_shape (o : Except Unit String)
    (rest trace : List (Except Unit String)) (b : Bool)
    (checks : List CheckRun)
    (hempty : probeChecks o = [])
    (hok : waitForChecks trace = Except.ok (b, checks)) :
    waitForChecks (o :: rest) = waitForChecks rest ∧
    checks ≠ [] ∧ (∀ c ∈ checks, c.status = Status.completed) ∧
    b = allSuccessful checks := by
  refine ⟨?_, ?_⟩
  · rw [show waitForChecks (o :: rest) =
      waitStep (probeChecks o) (waitForChecks rest) from rfl, hempty]
    simp [waitStep]
  clear hempty
  induction trace with
  | nil => exact absurd hok (by simp [waitForChecks])
  | cons p rest2 ih =>
    unfold waitForChecks waitStep at hok
    by_cases hE : (probeChecks p).isEmpty
    · rw [if_pos hE] at hok
      exact ih hok
    · rw [if_neg hE] at hok
      by_cases hC : allCompleted (probeChecks p) = true
      · rw [if_pos hC] at hok
        injection hok with hpair
        injection hpair with hb hch
        subst hb
        subst hch
        refine ⟨?_, (allCompleted_iff _).mp hC, rfl⟩
        intro hnil
        rw [hnil] at hE
        exact hE rfl
      · rw [if_neg hC] at hok
        exact ih hok

/-- Witness for C10: an iteration with blank output is skipped, and the
successful result of a later passing snapshot is non-empty. -/
theorem waitForChecks_ok_shape_witness :
    waitForChecks [Except.ok "", Except.ok "build\tpass\t1m\thttp://x"] =
      waitForChecks [Except.ok "build\tpass\t1m\thttp://x"] ∧
    ([{ id := 0, name := "build", status := Status.completed,
        conclusion := some Conclusion.success }] : List CheckRun) ≠ [] := by
  have h := waitForChecks_ok_shape (Except.ok "")
    [Except.ok "build\tpass\t1m\thttp://x"]
    [Except.ok "build\tpass\t1m\thttp://x"] true
    [{ id := 0, name := "build", status := Status.completed,
       conclusion := some Conclusion.success }]
    (by decide) (by decide)
  exact ⟨h.1, h.2.1⟩

/-- C7: with no baseline tag, the release run builds the fallback
DiffContext — previousVersion "unknown", empty diff, zero counts, no
changed files, commits bounded by the fallback count 15 — and issues
only the recent-commits query, never a tag-relative one. -/
theorem diff_fallback (repo : GitRepo) (latestTag : Option String)
    (h : latestTag = none) :
    (buildDiffContext repo latestTag).1 =
      { commits := repo.allCommits.take 15, diff := "", filesChanged := [],
        insertions := 0, deletions := 0, previousVersion := "unknown" } ∧
    (buildDiffContext repo latestTag).2 = [GitCall.getRecentCommits 15] ∧
    (∀ call ∈ (buildDiffContext repo latestTag).2,
      call.isTagRelative = false) ∧
    (buildDiffContext repo latestTag).1.commits.length ≤ 15 := by
  subst h
  refine ⟨rfl, rfl, ?_, ?_⟩
  · intro call hc
    simp only [buildDiffContext, List.mem_singleton] at hc
    subst hc
    rfl
  · simp [buildDiffContext, getRecentCommits]

/-- Witness for C7: the fallback call trace at a concrete repository. -/
theorem diff_fallback_witness :
    (buildDiffContext
      { allCommits := ["c2", "c1"], commitsSinceTag := fun _ => [],
        diffSummary := fun _ => { files := [], insertions := 0, deletions := 0 },
        fullDiffSinceTag := fun _ => "" } none).2 =
      [GitCall.getRecentCommits 15] :=
  (diff_fallback
    { allCommits := ["c2", "c1"], commitsSinceTag := fun _ => [],
      diffSummary := fun _ => { files := [], insertions := 0, deletions := 0 },
      fullDiffSinceTag := fun _ => "" } none rfl).2.1

/-- C8 counterexample: the generator reply "MAJOR" is not exactly
patch, minor, or major, yet suggestReleaseType returns major (the code
trims and lower-cases the reply before matching), not patch. -/
theorem suggest_exact_reply_cex :
    (suggestReleaseType
      { commits := ["fix: bug"], diff := "", filesChanged := [],
        insertions := 0, deletions := 0, previousVersion := "v1" }
      (Except.ok "MAJOR")).1 = ReleaseType.major ∧
    "MAJOR" ≠ "patch" ∧ "MAJOR" ≠ "minor" ∧ "MAJOR" ≠ "major" := by decide

/-- C8 amended: suggestReleaseType returns patch whenever the commit
list is empty, and then makes no generator call; it returns patch on
any generator failure and on any reply whose trimmed lower-cased form
is not patch, minor, or major; being a total function it never
propagates a failure to the caller. -/
theorem suggest_release_type_defaults (context : DiffContext)
    (gen : Except Unit String) (text : String) :
    (context.commits = [] →
      suggestReleaseType context gen = (ReleaseType.patch, false)) ∧
    (context.commits ≠ [] →
      suggestReleaseType context (Except.error ()) = (ReleaseType.patch, true)) ∧
    (context.commits ≠ [] →
      toLowerStr (trimStr text) ∉ (["patch", "minor", "major"] : List String) →
      suggestReleaseType context (Except.ok text) = (ReleaseType.patch, true)) := by
  refine ⟨?_, ?_, ?_⟩
  · intro h
    simp [suggestReleaseType, h]
  · intro h
    have hE : context.commits.isEmpty = false := by
      simpa [List.isEmpty_iff] using h
    simp [suggestReleaseType, hE]
  · intro h hw
    have hE : context.commits.isEmpty = false := by
      simpa [List.isEmpty_iff] using h
    simp only [List.mem_cons, List.not_mem_nil, or_false, not_or] at hw
    obtain ⟨h1, h2, h3⟩ := hw
    simp [suggestReleaseType, hE, h1, h2, h3]

/-- Witness for C8 (amended): an empty commit list yields patch with no
generator call; a prose reply yields patch. -/
theorem suggest_release_type_defaults_witness :
    suggestReleaseType
      { commits := [], diff := "", filesChanged := [], insertions := 0,
        deletions := 0, previousVersion := "v1" } (Except.ok "major") =
      (ReleaseType.patch, false) ∧
    suggestReleaseType
      { commits := ["feat: x"], diff := "", filesChanged := [], insertions := 0,
        deletions := 0, previousVersion := "v1" }
      (Except.ok "probably a minor bump") = (ReleaseType.patch, true) := by
  refine ⟨?_, ?_⟩
  · exact (suggest_release_type_defaults
      { commits := [], diff := "", filesChanged := [], insertions := 0,
        deletions := 0, previousVersion := "v1" }
      (Except.ok "major") "x").1 rfl
  · exact (suggest_release_type_defaults
      { commits := ["feat: x"], diff := "", filesChanged := [], insertions := 0,
        deletions := 0, previousVersion := "v1" }
      (Except.ok "probably a minor bump") "probably a minor bump").2.2
      (by decide) (by decide)

/-- Re-normalizing any canonical status string value returns the same
status. -/
theorem mapStatus_canonical (s : Status) : mapStatus (some s.toTok) = s := by
  cases s <;> decide

/-- Re-normalizing any canonical non-null conclusion string value other
than action_required returns the same conclusion. -/
theorem mapConclusion_canonical (co : Conclusion)
    (h : co ≠ Conclusion.action_required) :
    mapConclusion (some co.toTok) = some co := by
  cases co
  case action_required => exact absurd rfl h
  all_goals decide

/-- C9 counterexample: a canonical CheckRun whose conclusion is
action_required is changed by re-running the structured-field mapping —
mapConclusion has no ACTION_REQUIRED case, so the conclusion degrades
to null. -/
theorem renormalize_action_required_cex :
    renormalize
      { id := 0, name := "deploy", status := Status.completed,
        conclusion := some Conclusion.action_required } =
      { id := 0, name := "deploy", status := Status.completed,
        conclusion := none } ∧
    ({ id := 0, name := "deploy", status := Status.completed,
       conclusion := none } : CheckRun) ≠
      { id := 0, name := "deploy", status := Status.completed,
        conclusion := some Conclusion.action_required } := by decide

/-- C9 amended: the structured-field normalizer is idempotent on every
canonical CheckRun whose conclusion is not action_required (statuses
queued/in_progress/completed, conclusions success/failure/neutral/
cancelled/skipped/timed_out/null). -/
theorem renormalize_idempotent (c : CheckRun)
    (h : c.conclusion ≠ some Conclusion.action_required) :
    renormalize c = c := by
  obtain ⟨i, n, s, co⟩ := c
  cases co with
  | none =>
    simp [renormalize, mapStatus_canonical, mapConclusion]
  | some co =>
    have hco : co ≠ Conclusion.action_required := fun hh => h (by simp [hh])
    simp [renormalize, mapStatus_canonical, mapConclusion_canonical co hco]

/-- Witness for C9 (amended): idempotence at a concrete completed
successful CheckRun. -/
theorem renormalize_idempotent_witness :
    renormalize
      { id := 0, name := "build", status := Status.completed,
        conclusion := some Conclusion.success } =
      { id := 0, name := "build", status := Status.completed,
        conclusion := some Conclusion.success } :=
  renormalize_idempotent
    { id := 0, name := "build", status := Status.completed,
      conclusion := some Conclusion.success } (by decide)

end Autoship
